import Mathlib

/-!
Verification of the Rust Screenshot API against its specification.

This file shallowly embeds the parts of the source needed by the claims:
the sensitivity classifier (`src/data_classifier/classifier.rs`), the
anonymizer (`src/utils/anonymizer.rs`), the health endpoint status logic
(`src/api/handlers.rs`), the browser connection pool counters
(`src/screenshot/pool.rs`), the URL analyzer's query-parameter processing
and URL reconstruction (`src/url_parser/url_processor.rs`,
`url_reconstructor.rs`, `identifier.rs`, `parser.rs`), the redirect
crawler (`src/url_crawler/mod.rs`), and the worker loop
(`src/api/workers.rs`).  Machine integers are modelled as `Nat` with
explicit wrap-around where the source can overflow; fallible operations
return `Option`/`Except`; external I/O (the HTTP fetch, WebDriver, the
`url` crate's parser) is passed in as explicit function parameters.
-/

namespace ScreenshotAPI

/-! ### Sensitivity classifier (`src/data_classifier`) -/

/-- `SensitiveDataType` from `src/data_classifier/mod.rs`. -/
inductive SensitiveDataType where
  | Email
  | Phone
  | Username
  | Other
deriving DecidableEq, Repr

/-- Character class `[a-zA-Z0-9_.+-]` of the local part of `EMAIL_REGEX`
(`src/data_classifier/patterns.rs`). -/
def isEmailLocalChar (c : Char) : Bool :=
  c.isAlpha || c.isDigit || c = '_' || c = '.' || c = '+' || c = '-'

/-- Character class `[a-zA-Z0-9-]` of the domain part of `EMAIL_REGEX`. -/
def isEmailDomChar (c : Char) : Bool :=
  c.isAlpha || c.isDigit || c = '-'

/-- Character class `[a-zA-Z0-9-.]` of the final part of `EMAIL_REGEX`. -/
def isEmailFinalChar (c : Char) : Bool :=
  isEmailDomChar c || c = '.'

/-- Does the list start with `'.'` followed by a `[a-zA-Z0-9-.]` character?
Tail of the `EMAIL_REGEX` pattern after the domain run. -/
def emailDotFinal : List Char → Bool
  | '.' :: d :: _ => isEmailFinalChar d
  | _ => false

/-- Does some nonempty leading run of `[a-zA-Z0-9-]` characters end at
`'.'` followed by a `[a-zA-Z0-9-.]` character?  This is the existential
match of `[a-zA-Z0-9-]+\.[a-zA-Z0-9-.]+` anchored at the list head. -/
def emailDomDot : List Char → Bool
  | [] => false
  | c :: rest => isEmailDomChar c && (emailDotFinal rest || emailDomDot rest)

/-- Unanchored search semantics of `EMAIL_REGEX.is_match`: somewhere in the
string an `[a-zA-Z0-9_.+-]` character is followed by `'@'` and then a match
of `[a-zA-Z0-9-]+\.[a-zA-Z0-9-.]+`.  A match of the regex exists iff at
least one local character directly precedes the `'@'`, so scanning adjacent
pairs is equivalent to the full `+` on the local part. -/
def emailSearch : List Char → Bool
  | [] => false
  | [_] => false
  | a :: b :: rest =>
    (isEmailLocalChar a && decide (b = '@') && emailDomDot rest) || emailSearch (b :: rest)

/-- Character class `[\d -]` of `PHONE_REGEX` (`patterns.rs`). -/
def isPhoneMidChar (c : Char) : Bool :=
  c.isDigit || c = ' ' || c = '-'

/-- After an initial digit, `n` counts `[\d -]` characters consumed so far;
a match of `[\d -]{8,}\d` completes at any digit reached after at least 8
such characters. -/
def phoneAfter : List Char → Nat → Bool
  | [], _ => false
  | c :: rest, n => (c.isDigit && decide (8 ≤ n)) || (isPhoneMidChar c && phoneAfter rest (n + 1))

/-- Unanchored search semantics of `PHONE_REGEX.is_match` for
`\+?\d[\d -]{8,}\d`: the optional leading `+` never affects whether a match
exists, so it is dropped. -/
def phoneSearch : List Char → Bool
  | [] => false
  | c :: rest => (c.isDigit && phoneAfter rest 0) || phoneSearch rest

/-- `classify_sensitive` from `src/data_classifier/classifier.rs`: email
regex, then phone regex, then no-space-and-no-at, then non-empty, else
`None`.  Note the third branch has no emptiness test in the source. -/
def classifySensitive (value : String) : Option SensitiveDataType :=
  if emailSearch value.data then some SensitiveDataType.Email
  else if phoneSearch value.data then some SensitiveDataType.Phone
  else if !value.data.contains ' ' && !value.data.contains '@' then some SensitiveDataType.Username
  else if !value.data.isEmpty then some SensitiveDataType.Other
  else none

/-! ### Anonymizer (`src/utils/anonymizer.rs`) -/

/-- The fixed fake email pool of `Anonymizer::new`. -/
def fakeEmails : List String :=
  ["user@example.com", "test@example.com", "demo@example.com"]

/-- The fixed fake username pool of `Anonymizer::new`. -/
def fakeUsernames : List String :=
  ["testuser", "demouser", "exampleuser"]

/-- The fixed fake phone pool of `Anonymizer::new`. -/
def fakePhoneNumbers : List String :=
  ["555-123-4567", "555-987-6543"]

/-- `Anonymizer::anonymize_value`.  `SliceRandom::choose(thread_rng())`
picks a uniformly random index into the pool; the random draw is modelled
by the explicit parameter `r`, reduced mod the pool length.  The input
`value` is ignored by the source (parameter `_value`). -/
def anonymizeValue (_value : String) (ty : Option SensitiveDataType) (r : Nat) : String :=
  match ty with
  | some SensitiveDataType.Email => (fakeEmails.getD (r % fakeEmails.length) "user@example.com")
  | some SensitiveDataType.Phone => (fakePhoneNumbers.getD (r % fakePhoneNumbers.length) "555-123-4567")
  | some SensitiveDataType.Username => (fakeUsernames.getD (r % fakeUsernames.length) "testuser")
  | _ => "anonymized_value"

/-- The pool the anonymizer draws from for a given classification. -/
def anonymizerPool (ty : Option SensitiveDataType) : List String :=
  match ty with
  | some SensitiveDataType.Email => fakeEmails
  | some SensitiveDataType.Phone => fakePhoneNumbers
  | some SensitiveDataType.Username => fakeUsernames
  | _ => ["anonymized_value"]

/-! ### Health endpoint status (`src/api/handlers.rs`, `health_check`) -/

/-- The status string computed by `health_check` from the pool counters.
The branch order is exactly that of the source: `active >= total && total > 0`
first, so the later `active > total` arm is reachable only when `total == 0`. -/
def healthStatus (active total : Nat) : String :=
  if total ≤ active ∧ 0 < total then "degraded"
  else if total < active then "unhealthy"
  else if total = 0 then "unhealthy"
  else "healthy"

/-! ### Browser connection pool counters (`src/screenshot/pool.rs`) -/

/-- `MAX_CONNECTIONS` from `src/screenshot/config.rs` (the spec's
`MAX_SESSIONS`). -/
def maxConnections : Nat := 10

/-- `MIN_CONNECTIONS` from `src/screenshot/config.rs`. -/
def minConnections : Nat := 2

/-- Modulus of Rust's `usize` (64-bit target). -/
def usizeMod : Nat := 2 ^ 64

/-- `AtomicUsize::fetch_sub(1)` wraps on underflow. -/
def usizeDec (n : Nat) : Nat := (n + (usizeMod - 1)) % usizeMod

/-- Counter-relevant state of `ConnectionPool`: the idle deque length, the
semaphore's available permits, and the `active_connections` /
`total_connections` atomics. -/
structure PoolState where
  idle : Nat
  permits : Nat
  active : Nat
  total : Nat
deriving DecidableEq, Repr

/-- The successful path of `ConnectionPool::get_client` (pool.rs lines
211-341): a semaphore permit is acquired (`none` models the acquire
timeout), one pooled client is popped if any exists (an aged client is
closed and replaced, an empty deque leads to on-demand creation; in every
branch the deque shrinks by at most one and a client is handed out).  The
function only *loads* `active_connections` and `total_connections`; it
never stores to either, and the on-demand creation does not increment
`total_connections`. -/
def getClient (s : PoolState) : Option PoolState :=
  if 0 < s.permits then some ⟨s.idle - 1, s.permits - 1, s.active, s.total⟩ else none

/-- `ConnectionPool::return_client`: push the client back, release one
permit, `active_connections.fetch_sub(1)`. -/
def returnClient (s : PoolState) : PoolState :=
  ⟨s.idle + 1, s.permits + 1, usizeDec s.active, s.total⟩

/-- `ConnectionPool::discard_client`: close the client (not re-pooled),
release one permit, `active_connections.fetch_sub(1)`. -/
def discardClient (s : PoolState) : PoolState :=
  ⟨s.idle, s.permits + 1, usizeDec s.active, s.total⟩

/-- State after `ConnectionPool::new` when both initial `MIN_CONNECTIONS`
creations succeed: two idle clients, `Semaphore::new(MAX_CONNECTIONS)`,
`active = 0`, `total = 2` (each successful initial creation does
`total_connections.fetch_add(1)`). -/
def initialPoolState : PoolState := ⟨2, 10, 0, 2⟩

/-! ### Base64 and UTF-8 decoding (`base64` crate STANDARD engine,
`String::from_utf8`), used by `analyze_potential_base64`
(`src/url_parser/identifier.rs`) -/

/-- Index of a character in the standard base64 alphabet. -/
def b64Index (c : Char) : Option Nat :=
  if 'A' ≤ c ∧ c ≤ 'Z' then some (c.toNat - 65)
  else if 'a' ≤ c ∧ c ≤ 'z' then some (c.toNat - 97 + 26)
  else if '0' ≤ c ∧ c ≤ '9' then some (c.toNat - 48 + 52)
  else if c = '+' then some 62
  else if c = '/' then some 63
  else none

/-- `BASE64.decode` of the `base64` crate's `STANDARD` engine: input length
must be a multiple of 4, canonical padding required, non-zero trailing bits
rejected.  Output is the byte list. -/
def base64Decode : List Char → Option (List Nat)
  | [] => some []
  | a :: b :: c :: d :: rest =>
    match b64Index a, b64Index b with
    | some ia, some ib =>
      if c = '=' ∧ d = '=' ∧ rest = [] then
        if ib % 16 = 0 then some [ia * 4 + ib / 16] else none
      else if d = '=' ∧ rest = [] then
        match b64Index c with
        | some ic => if ic % 4 = 0 then some [ia * 4 + ib / 16, (ib % 16) * 16 + ic / 4] else none
        | none => none
      else
        match b64Index c, b64Index d with
        | some ic, some i4 =>
          match base64Decode rest with
          | some bytes =>
            some ((ia * 4 + ib / 16) :: ((ib % 16) * 16 + ic / 4) :: ((ic % 4) * 64 + i4) :: bytes)
          | none => none
        | _, _ => none
    | _, _ => none
  | _ => none

/-- Is a byte a UTF-8 continuation byte (`10xxxxxx`)? -/
def isUtf8Cont (b : Nat) : Bool := 128 ≤ b && b ≤ 191

/-- Valid second byte of a 3-byte UTF-8 sequence (excludes overlong forms
and surrogates, as `String::from_utf8` does). -/
def utf8Valid3 (b1 b2 : Nat) : Bool :=
  isUtf8Cont b2 && (if b1 = 224 then 160 ≤ b2 else if b1 = 237 then b2 ≤ 159 else true)

/-- Valid second byte of a 4-byte UTF-8 sequence (excludes overlong forms
and code points above U+10FFFF). -/
def utf8Valid4 (b1 b2 : Nat) : Bool :=
  isUtf8Cont b2 && (if b1 = 240 then 144 ≤ b2 else if b1 = 244 then b2 ≤ 143 else true)

/-- `String::from_utf8`: strict UTF-8 validation and decoding of a byte
list to characters; `none` models `Err(FromUtf8Error)`. -/
def utf8Decode : List Nat → Option (List Char)
  | [] => some []
  | b1 :: rest =>
    if b1 < 128 then
      (utf8Decode rest).map (fun cs => Char.ofNat b1 :: cs)
    else
      match rest with
      | b2 :: rest2 =>
        if 194 ≤ b1 ∧ b1 ≤ 223 ∧ isUtf8Cont b2 then
          (utf8Decode rest2).map (fun cs => Char.ofNat ((b1 - 192) * 64 + (b2 - 128)) :: cs)
        else
          match rest2 with
          | b3 :: rest3 =>
            if (224 ≤ b1 ∧ b1 ≤ 239) ∧ utf8Valid3 b1 b2 ∧ isUtf8Cont b3 then
              (utf8Decode rest3).map
                (fun cs => Char.ofNat ((b1 - 224) * 4096 + (b2 - 128) * 64 + (b3 - 128)) :: cs)
            else
              match rest3 with
              | b4 :: rest4 =>
                if (240 ≤ b1 ∧ b1 ≤ 244) ∧ utf8Valid4 b1 b2 ∧ isUtf8Cont b3 ∧ isUtf8Cont b4 then
                  (utf8Decode rest4).map
                    (fun cs => Char.ofNat
                      ((b1 - 240) * 262144 + (b2 - 128) * 4096 + (b3 - 128) * 64 + (b4 - 128)) :: cs)
                else none
              | [] => none
          | [] => none
      | [] => none

/-! ### Identifiers and the URL analyzer (`src/url_parser`) -/

/-- `Identifier` from `src/url_parser/identifier.rs`. -/
structure Identifier where
  value : String
  decoded_value : Option String
  anonymized_value : Option String
deriving DecidableEq, Repr

/-- `analyze_base64_internal` (`identifier.rs`): base64-decode the value,
UTF-8 decode the bytes, classify; on a non-`None` classification build an
`Identifier` with the anonymized replacement.  `r` is the anonymizer's
random draw for this call. -/
def analyzeBase64Internal (value : String) (r : Nat) : Option Identifier :=
  match base64Decode value.data with
  | some bytes =>
    match utf8Decode bytes with
    | some cs =>
      let decoded : String := ⟨cs⟩
      match classifySensitive decoded with
      | some ty => some ⟨value, some decoded, some (anonymizeValue decoded (some ty) r)⟩
      | none => none
    | none => none
  | none => none

/-- Scanner of the non-overlapping left-to-right replacement of every
occurrence of `pat` by `rep`, matching only against the original
characters — the semantics of Rust's `str::replace` (via `match_indices`)
for a nonempty pattern.  `skip` counts characters of a just-matched
occurrence still to be consumed without emission (on a match at the
current character, `rep` is emitted and the remaining `pat.length - 1`
matched characters are skipped).  For the empty pattern the source paths
never reach this function (identifier values have length > 8), and this
model leaves the string unchanged. -/
def replaceGo (pat rep : List Char) : List Char → Nat → List Char
  | [], _ => []
  | c :: rest, 0 =>
    if pat ≠ [] ∧ pat.isPrefixOf (c :: rest) then
      rep ++ replaceGo pat rep rest (pat.length - 1)
    else
      c :: replaceGo pat rep rest 0
  | _ :: rest, skip + 1 => replaceGo pat rep rest skip

/-- `str::replace`: replace all non-overlapping occurrences, scanning from
the left. -/
def replaceAll (pat rep s : List Char) : List Char :=
  replaceGo pat rep s 0

/-- `str::replace` on `String`. -/
def strReplace (s pat rep : String) : String :=
  ⟨replaceAll pat.data rep.data s.data⟩

/-- `str::starts_with` with a string pattern. -/
def strStartsWith (s pre : String) : Bool :=
  pre.data.isPrefixOf s.data

/-- Substring test (`str::contains` with a `&str` pattern). -/
def containsSub (pat : List Char) : List Char → Bool
  | [] => decide (pat = [])
  | c :: rest => pat.isPrefixOf (c :: rest) || containsSub pat rest

/-- `str::contains` on `String`. -/
def strContains (s pat : String) : Bool := containsSub pat.data s.data

/-- One iteration of the loop of
`ParsedUrl::create_decoded_and_replacement_urls` (`parser.rs` lines
167-177): substitute the identifier's raw value by its decoded form in the
first component and by its anonymized form in the second. -/
def substStep (acc : String × String) (idr : Identifier) : String × String :=
  let d := match idr.decoded_value with
    | some dec => strReplace acc.1 idr.value dec
    | none => acc.1
  let r := match idr.anonymized_value with
    | some an => strReplace acc.2 idr.value an
    | none => acc.2
  (d, r)

/-- `ParsedUrl::create_decoded_and_replacement_urls` (`parser.rs` lines
163-183): fold `substStep` over the identifiers, starting from two copies
of the original URL text. -/
def createDecodedAndReplacementUrls (ids : List Identifier) (originalUrl : String) :
    String × String :=
  ids.foldl substStep (originalUrl, originalUrl)

/-- The `raw → decoded` substitution of the spec: first component of
`create_decoded_and_replacement_urls`. -/
def decodedSubst (ids : List Identifier) (s : String) : String :=
  (createDecodedAndReplacementUrls ids s).1

/-- The `raw → replacement` substitution of the spec: second component of
`create_decoded_and_replacement_urls`. -/
def replacementSubst (ids : List Identifier) (s : String) : String :=
  (createDecodedAndReplacementUrls ids s).2

/-- Structured view of a parsed absolute URL (the `url::Url` fields the
embedded code reads): scheme, host, path, and the decoded query pairs in
document order.  Percent-encoding and the remaining `url`-crate
normalisation are abstracted: query pairs are stored decoded. -/
structure UrlModel where
  scheme : String
  host : Option String
  path : String
  query : List (String × String)
deriving DecidableEq, Repr

/-- `HashMap::insert` on an association list: replaces the value of an
existing key, otherwise appends. -/
def upsert (l : List (String × String)) (k v : String) : List (String × String) :=
  match l with
  | [] => [(k, v)]
  | (k', v') :: rest => if k' = k then (k, v) :: rest else (k', v') :: upsert rest k v

/-- Loop body of `process_query_parameters` (`url_processor.rs` lines
38-73) over the remaining query pairs.  `parseOk` models whether
`Url::parse` succeeds on a referenced URL value (`add_referenced_url`
propagates its failure); `picks` supplies the anonymizer's random draw for
the `k`-th identifier found.  URL-valued parameters named `url`,
`redirect_uri` or `redirect_url` are preserved verbatim in
`replacement_params` and skipped; every other value longer than 8 bytes is
probed as base64, and a discovered identifier's anonymized value is
inserted into `replacement_params` under the parameter name. -/
def processQueryLoop (parseOk : String → Bool) (picks : Nat → Nat) :
    List (String × String) → List Identifier → List (String × String) → Nat →
    Except String (List Identifier × List (String × String))
  | [], ids, params, _ => .ok (ids, params)
  | (key, value) :: rest, ids, params, k =>
    let b64Step : Except String (List Identifier × List (String × String)) :=
      if 8 < value.length then
        match analyzeBase64Internal value (picks k) with
        | some idr =>
          let params2 := match idr.anonymized_value with
            | some a => upsert params key a
            | none => params
          processQueryLoop parseOk picks rest (ids ++ [idr]) params2 (k + 1)
        | none => processQueryLoop parseOk picks rest ids params k
      else processQueryLoop parseOk picks rest ids params k
    if strStartsWith value "http://" || strStartsWith value "https://" then
      if parseOk value then
        if key = "url" ∨ key = "redirect_uri" ∨ key = "redirect_url" then
          processQueryLoop parseOk picks rest ids (upsert params key value) k
        else b64Step
      else .error ("Invalid original URL: " ++ value)
    else b64Step

/-- `process_query_parameters`: run the loop over the URL's query pairs
with empty accumulators. -/
def processQueryParameters (parseOk : String → Bool) (picks : Nat → Nat) (url : UrlModel) :
    Except String (List Identifier × List (String × String)) :=
  processQueryLoop parseOk picks url.query [] [] 0

/-- `reconstruct_url` (`url_reconstructor.rs`): clone the original URL,
`set_query(None)`, then append exactly the replacement parameters.  Scheme,
host and path are untouched; the original query is discarded.  The
`HashMap` iteration order is abstracted as the association-list order. -/
def reconstructUrl (original : UrlModel) (replacementParams : List (String × String)) :
    UrlModel :=
  ⟨original.scheme, original.host, original.path, replacementParams⟩

/-! ### Redirect crawler (`src/url_crawler/mod.rs`) -/

/-- `RedirectResult` from `src/url_crawler/mod.rs`. -/
structure RedirectResult where
  chain : List String
  hop_count : Nat
deriving DecidableEq, Repr

/-- The configuration fields of `CrawlerConfig` that influence the control
flow of `crawl_redirect_chain_with_config` (timeouts and client pooling
parameters only configure the HTTP client and are omitted). -/
structure CrawlerConfig where
  max_hops : Nat
  max_url_length : Nat
  allowed_schemes : List String
  follow_hostname_redirects_only : Bool
  detect_meta_refresh : Bool
deriving Repr

/-- An HTTP response as the crawler observes it: status code, `Location`
header, `Content-Type` header, body. -/
structure HttpResponse where
  status : Nat
  location : Option String
  contentType : Option String
  body : String
deriving Repr

/-- The network: what a GET of each URL returns; `none` models a transport
error (`client.get(...).send()` failing). -/
def Web : Type := String → Option HttpResponse

/-- The redirect test of the source (line 274): `status >= 300 && status < 400
&& status != 304`. -/
def isRedirectStatus (s : Nat) : Bool :=
  300 ≤ s && s < 400 && s ≠ 304

/-- Location determination for a redirect response (lines 277-318): use the
`Location` header; failing that, on a `httpbin.org/redirect-to` URL fall
back to the `url` query parameter of the current URL; otherwise `none`
(the loop breaks). -/
def findLocation (parse : String → Option UrlModel) (current : String)
    (resp : HttpResponse) : Option String :=
  match resp.location with
  | some loc => some loc
  | none =>
    if strContains current "httpbin.org/redirect-to" then
      match parse current with
      | some u =>
        match u.query.find? (fun kv => kv.1 == "url") with
        | some kv => some kv.2
        | none => none
      | none => none
    else none

/-- Next-URL resolution (lines 329-349): a location starting with `http` is
taken verbatim; otherwise the current URL is parsed as a base (`Err` on
failure) and the location resolved against it (`resolve`, `Err` on
failure). -/
def nextUrlOf (parse : String → Option UrlModel) (resolve : String → String → Option String)
    (current locStr : String) : Except String String :=
  if strStartsWith locStr "http" then .ok locStr
  else
    match parse current with
    | none => .error "Failed to parse current URL for relative redirect"
    | some _ =>
      match resolve current locStr with
      | some u => .ok u
      | none => .error "Failed to resolve relative redirect URL"

/-- `host_str().unwrap_or("")`. -/
def hostStr (h : Option String) : String := h.getD ""

/-- The crawl loop of `crawl_redirect_chain_with_config` (lines 244-398).
`startHost` is the host of the start URL (`parsed_url.host_str()` in the
source, which is never re-assigned), `visited` the visited set, `chain`
the collected chain and `hops` the hop counter.  The source loop needs no
fuel: every continuing iteration increments `hops` and requires
`hops < max_hops`, so `max_hops + 1` iterations bound it; `fuel` makes
that bound explicit and the top-level entry supplies `max_hops + 1`, which
is never exhausted.  Stopping conditions return `.ok` with what was
collected (`break`); hard failures return `.error` (`return Err`). -/
def crawlLoop (cfg : CrawlerConfig) (parse : String → Option UrlModel)
    (resolve : String → String → Option String) (web : Web) (startHost : Option String) :
    Nat → List String → List String → String → Nat → Except String RedirectResult
  | 0, _, _, _, _ => .error "crawl loop fuel exhausted"
  | fuel + 1, visited, chain, current, hops =>
    if current ∈ visited then .ok ⟨chain, hops⟩
    else
      let visited2 := current :: visited
      let chain2 := chain ++ [current]
      match web current with
      | none => .error ("Failed to send request to " ++ current)
      | some resp =>
        if isRedirectStatus resp.status then
          match findLocation parse current resp with
          | none => .ok ⟨chain2, hops⟩
          | some locStr =>
            if cfg.max_hops ≤ hops then .ok ⟨chain2, hops⟩
            else
              match nextUrlOf parse resolve current locStr with
              | .error e => .error e
              | .ok nextUrl =>
                match parse nextUrl with
                | none => .error "Failed to parse redirect URL"
                | some nextParsed =>
                  if ¬ cfg.allowed_schemes.contains nextParsed.scheme then .ok ⟨chain2, hops⟩
                  else if cfg.follow_hostname_redirects_only ∧
                      hostStr startHost ≠ hostStr nextParsed.host then .ok ⟨chain2, hops⟩
                  else crawlLoop cfg parse resolve web startHost fuel visited2 chain2 nextUrl (hops + 1)
        else if resp.status = 200 ∧ cfg.detect_meta_refresh then
          -- The source (lines 380-393) reads the Content-Type header here but
          -- explicitly skips the meta-refresh / JS-redirect detection
          -- ("We'll skip the actual implementation...") and always breaks.
          .ok ⟨chain2, hops⟩
        else .ok ⟨chain2, hops⟩

/-- `crawl_redirect_chain_with_config` (lines 182-407): validate emptiness,
length and scheme of the start URL, then run the loop from the start URL
with empty chain and visited set. -/
def crawlRedirectChainWithConfig (parse : String → Option UrlModel)
    (resolve : String → String → Option String) (web : Web)
    (startUrl : String) (cfg : CrawlerConfig) : Except String RedirectResult :=
  if startUrl.data.isEmpty then .error "URL cannot be empty"
  else if cfg.max_url_length < startUrl.length then
    .error "URL exceeds maximum length"
  else
    match parse startUrl with
    | none => .error "Failed to parse URL"
    | some u =>
      if ¬ cfg.allowed_schemes.contains u.scheme then .error "URL scheme is not allowed"
      else crawlLoop cfg parse resolve web u.host (cfg.max_hops + 1) [] [] startUrl 0

/-- `crawl_multiple_urls` (lines 421-468).  All crawl tasks are spawned and
their handles awaited in input order; each handle's result is unwrapped
with `?`, so the returned value equals the sequential fold below: the
first per-URL error (in input order) aborts the whole batch.  `crawl`
abstracts the per-URL `crawl_redirect_chain_with_config` call. -/
def crawlMultipleUrls (crawl : String → Except String RedirectResult) :
    List String → Except String (List RedirectResult)
  | [] => .ok []
  | u :: rest =>
    match crawl u with
    | .ok r => (crawlMultipleUrls crawl rest).map (fun rs => r :: rs)
    | .error e => .error ("Failed to crawl " ++ u ++ ": " ++ e)

/-! ### Worker loop (`src/api/workers.rs`) -/

/-- A `ScreenshotJob` as the worker sees it: the request URL and an index
identifying the job's one-shot response channel. -/
structure Job where
  url : String
  jobId : Nat
deriving DecidableEq, Repr

/-- `worker_task` (workers.rs lines 163-237) over the sequence of jobs
delivered on the worker's channel.  `proc` abstracts the (timeout-guarded)
`process_request` outcome for a job.  The output lists, in order, the
messages sent on response sinks: one `Ok`/`Err` outcome per received job,
except that a job whose URL is the literal `"SHUTDOWN"` breaks the loop
without sending anything. -/
def workerTask (proc : Job → Except String String) : List Job → List (Nat × Except String String)
  | [] => []
  | j :: rest =>
    if j.url = "SHUTDOWN" then []
    else (j.jobId, proc j) :: workerTask proc rest

/-! ### Concrete instances used to evaluate the models -/

/-- A two-page toy site parser: `http://a/` and `http://b/`. -/
def parseToy : String → Option UrlModel := fun s =>
  if s = "http://a/" then some ⟨"http", some "a", "/", []⟩
  else if s = "http://b/" then some ⟨"http", some "b", "/", []⟩
  else none

/-- Relative-URL resolution that is never consulted (all toy locations are
absolute). -/
def resolveNone : String → String → Option String := fun _ _ => none

/-- A web with a two-cycle of 302 redirects: `a → b → a`. -/
def webLoop : Web := fun s =>
  if s = "http://a/" then some ⟨302, some "http://b/", none, ""⟩
  else if s = "http://b/" then some ⟨302, some "http://a/", none, ""⟩
  else none

/-- A web where `http://a/` serves an HTML page whose body is a
meta-refresh redirect to `http://b/`, and `http://b/` serves a plain page. -/
def webMeta : Web := fun s =>
  if s = "http://a/" then some ⟨200, none, some "text/html",
    "<meta http-equiv=\"refresh\" content=\"0; url=http://b/\">"⟩
  else if s = "http://b/" then some ⟨200, none, some "text/html", "target page"⟩
  else none

/-- The default `CrawlerConfig` control-flow fields (`Default for
CrawlerConfig`): `max_hops = 10`, `max_url_length = 2048`, schemes
`{http, https}`, both feature flags off. -/
def cfgBase : CrawlerConfig := ⟨10, 2048, ["http", "https"], false, false⟩

/-- The default configuration with `detect_meta_refresh` enabled
(`with_detect_meta_refresh(true)`). -/
def cfgMeta : CrawlerConfig := ⟨10, 2048, ["http", "https"], false, true⟩

/-- A per-URL crawl stub where every URL yields a one-element chain. -/
def crawlOkStub : String → Except String RedirectResult := fun u => .ok ⟨[u], 0⟩

/-- A per-URL crawl stub where exactly `http://bad/` fails. -/
def crawlStubBatch : String → Except String RedirectResult := fun u =>
  if u = "http://bad/" then .error "dns failure" else .ok ⟨[u], 0⟩

/-- A processing stub for the worker model: the outcome echoes the URL. -/
def procStub : Job → Except String String := fun j => .ok j.url

/-- A worker delivery sequence: one ordinary job, the shutdown sentinel,
then a job that is never received. -/
def jobsW : List Job := [⟨"http://x/", 0⟩, ⟨"SHUTDOWN", 1⟩, ⟨"http://y/", 2⟩]

/-- `https://example.com/path?q=v`: one short query parameter that yields
no finding. -/
def urlQV : UrlModel := ⟨"https", some "example.com", "/path", [("q", "v")]⟩

/-- `aGVsbG94eA==` is the standard base64 encoding of `helloxx`; the
analyzer classifies the decoded text as `Username`. -/
def idHello : Identifier := ⟨"aGVsbG94eA==", some "helloxx", some "testuser"⟩

/-- `YUdWc2JHOTRlQT09` is the standard base64 encoding of the string
`aGVsbG94eA==` itself, so its decoded value is another identifier's raw
value. -/
def idNested : Identifier := ⟨"YUdWc2JHOTRlQT09", some "aGVsbG94eA==", some "testuser"⟩

/-- A URL whose two query parameters decode to the identifiers above. -/
def urlB64 : UrlModel :=
  ⟨"https", some "example.com", "/", [("a", "aGVsbG94eA=="), ("b", "YUdWc2JHOTRlQT09")]⟩

/-- The textual form of `urlB64`, as handed to
`create_decoded_and_replacement_urls`. -/
def origB64 : String := "https://example.com/?a=aGVsbG94eA==&b=YUdWc2JHOTRlQT09"

/-! ## Theorems -/

/-! ### Supporting lemmas -/

/-- An element picked at a reduced random index lies in the pool. -/
theorem getD_mod_mem (l : List String) (d : String) (r : Nat) (h : l ≠ []) :
    l.getD (r % l.length) d ∈ l := by
  have hlen : 0 < l.length := List.length_pos.mpr h
  have hlt : r % l.length < l.length := Nat.mod_lt _ hlen
  rw [List.getD_eq_getElem l d hlt]
  exact List.getElem_mem hlt

/-! ### C1 — browser pool counter invariant -/

/-- C1: the failing run.  From the freshly initialized pool (two idle
clients, 10 permits, `active = 0`, `total = 2`), one successful
`get_client` consumes a permit but leaves `active_connections` untouched,
so `semaphore.available + active = 9 ≠ MAX_SESSIONS`; a subsequent
`return_client` then wraps `active_connections` to `2^64 − 1`, far above
`total`.  This contradicts the claimed invariants; the source itself
documents the intent (the comment "Update active connection count (already
done by permit_guard.activate)" refers to a method that does not exist). -/
theorem pool_counters_bug :
    getClient initialPoolState = some ⟨1, 9, 0, 2⟩ ∧
    (⟨1, 9, 0, 2⟩ : PoolState).permits + (⟨1, 9, 0, 2⟩ : PoolState).active ≠ maxConnections ∧
    (⟨1, 9, 0, 2⟩ : PoolState).active = initialPoolState.active ∧
    returnClient ⟨1, 9, 0, 2⟩ = ⟨2, 10, usizeMod - 1, 2⟩ ∧
    (returnClient ⟨1, 9, 0, 2⟩).total < (returnClient ⟨1, 9, 0, 2⟩).active := by
  refine ⟨by decide, by decide, by decide, ?_, ?_⟩ <;> decide

/-! ### C8 — health endpoint status mapping -/

/-- C8 counterexample: with `active = 5 > total = 3` the handler reports
`"degraded"`, not the `"unhealthy"` the claim requires, because the first
branch `active >= total && total > 0` captures the case. -/
theorem health_active_gt_total_counterexample :
    healthStatus 5 3 = "degraded" ∧ healthStatus 5 3 ≠ "unhealthy" := by
  decide

/-- C8 amended: `healthy` iff `active < total`; `degraded` whenever
`active ≥ total > 0` (including `active > total`); `unhealthy` iff
`total = 0`. -/
theorem healthStatus_amended (a t : Nat) :
    (a < t → healthStatus a t = "healthy") ∧
    (t ≤ a ∧ 0 < t → healthStatus a t = "degraded") ∧
    (t = 0 → healthStatus a t = "unhealthy") := by
  refine ⟨fun h => ?_, fun h => ?_, fun h => ?_⟩
  · have h1 : ¬(t ≤ a ∧ 0 < t) := by omega
    have h2 : ¬(t < a) := by omega
    have h3 : ¬(t = 0) := by omega
    simp [healthStatus, h1, h2, h3]
  · simp [healthStatus, h]
  · have h1 : ¬(t ≤ a ∧ 0 < t) := by omega
    simp [healthStatus, h1, h]

/-- C8 amended, instantiated: one reading from each hypothesis class. -/
theorem healthStatus_amended_witness :
    healthStatus 2 5 = "healthy" ∧ healthStatus 7 7 = "degraded" ∧
    healthStatus 3 0 = "unhealthy" :=
  ⟨(healthStatus_amended 2 5).1 (by decide),
   (healthStatus_amended 7 7).2.1 (by decide),
   (healthStatus_amended 3 0).2.2 rfl⟩

/-! ### C6 — sensitivity classifier -/

/-- C6 counterexample: the empty string is classified `Username`, not
`None` — the Username branch of `classify_sensitive` has no emptiness
test, so `None` is unreachable. -/
theorem classify_empty_counterexample :
    classifySensitive "" = some SensitiveDataType.Username ∧
    classifySensitive "" ≠ none := by
  decide

/-- C6 amended: `classify_sensitive` is total and deterministic, evaluates
Email regex, then Phone regex, then Username (no space and no `@`, with no
non-emptiness requirement, so the empty string is `Username`), then Other
(non-empty); `None` is never returned. -/
theorem classifySensitive_amended (s : String) :
    classifySensitive s ≠ none ∧
    (emailSearch s.data = true → classifySensitive s = some SensitiveDataType.Email) ∧
    (emailSearch s.data = false → phoneSearch s.data = true →
      classifySensitive s = some SensitiveDataType.Phone) ∧
    (emailSearch s.data = false → phoneSearch s.data = false →
      ' ' ∉ s.data → '@' ∉ s.data →
      classifySensitive s = some SensitiveDataType.Username) ∧
    (emailSearch s.data = false → phoneSearch s.data = false →
      (' ' ∈ s.data ∨ '@' ∈ s.data) →
      classifySensitive s = some SensitiveDataType.Other) := by
  refine ⟨?_, fun he => ?_, fun he hp => ?_, fun he hp hs ha => ?_, fun he hp hor => ?_⟩
  · by_cases he : emailSearch s.data = true
    · simp [classifySensitive, he]
    · by_cases hp : phoneSearch s.data = true
      · simp [classifySensitive, he, hp]
      · by_cases hsp : ' ' ∈ s.data
        · have hne : s.data ≠ [] := fun h0 => by rw [h0] at hsp; exact absurd hsp (by simp)
          have hu : ¬(' ' ∉ s.data ∧ '@' ∉ s.data) := fun hc => hc.1 hsp
          simp [classifySensitive, he, hp, hu, hne]
        · by_cases hat : '@' ∈ s.data
          · have hne : s.data ≠ [] := fun h0 => by rw [h0] at hat; exact absurd hat (by simp)
            have hu : ¬(' ' ∉ s.data ∧ '@' ∉ s.data) := fun hc => hc.2 hat
            simp [classifySensitive, he, hp, hu, hne]
          · simp [classifySensitive, he, hp, hsp, hat]
  · simp [classifySensitive, he]
  · simp [classifySensitive, he, hp]
  · simp [classifySensitive, he, hp, hs, ha]
  · have hne : s.data ≠ [] := by
      rcases hor with h | h <;>
        exact fun h0 => by rw [h0] at h; exact absurd h (by simp)
    have hu : ¬(' ' ∉ s.data ∧ '@' ∉ s.data) := by
      rcases hor with h | h
      · exact fun hc => hc.1 h
      · exact fun hc => hc.2 h
    simp [classifySensitive, he, hp, hu, hne]

/-- C6 amended, instantiated at `"a b"` (contains a space, matches neither
regex): the Other rule fires. -/
theorem classifySensitive_amended_witness :
    classifySensitive "a b" = some SensitiveDataType.Other :=
  (classifySensitive_amended "a b").2.2.2.2 (by decide) (by decide) (Or.inl (by decide))

/-! ### C7 — anonymizer -/

/-- C7 counterexample: `"user@example.com"` is classified `Email`, and the
random draw with index 0 returns the pool element `"user@example.com"` —
the input itself.  `anonymize_value` ignores its input, so it cannot
guarantee the output differs from it. -/
theorem anonymize_returns_input_counterexample :
    classifySensitive "user@example.com" = some SensitiveDataType.Email ∧
    anonymizeValue "user@example.com" (some SensitiveDataType.Email) 0 = "user@example.com" := by
  decide

/-- C7 amended: for every input, classification and random draw, the result
is a member of the fixed fake pool of the corresponding type (the sentinel
`"anonymized_value"` for Other/None), and it differs from the input
whenever the input is not itself one of the pool values. -/
theorem anonymizeValue_amended (v : String) (ty : Option SensitiveDataType) (r : Nat) :
    anonymizeValue v ty r ∈ anonymizerPool ty ∧
    (v ∉ anonymizerPool ty → anonymizeValue v ty r ≠ v) := by
  have hmem : anonymizeValue v ty r ∈ anonymizerPool ty := by
    match ty with
    | some SensitiveDataType.Email =>
      exact getD_mod_mem fakeEmails "user@example.com" r (by decide)
    | some SensitiveDataType.Phone =>
      exact getD_mod_mem fakePhoneNumbers "555-123-4567" r (by decide)
    | some SensitiveDataType.Username =>
      exact getD_mod_mem fakeUsernames "testuser" r (by decide)
    | some SensitiveDataType.Other => simp [anonymizeValue, anonymizerPool]
    | none => simp [anonymizeValue, anonymizerPool]
  exact ⟨hmem, fun hv heq => hv (heq ▸ hmem)⟩

/-- C7 amended, instantiated: an email not in the fake pool is anonymized
to a pool member that differs from it. -/
theorem anonymizeValue_amended_witness :
    anonymizeValue "victim@real.com" (some SensitiveDataType.Email) 1 ∈
      anonymizerPool (some SensitiveDataType.Email) ∧
    anonymizeValue "victim@real.com" (some SensitiveDataType.Email) 1 ≠ "victim@real.com" :=
  ⟨(anonymizeValue_amended "victim@real.com" (some SensitiveDataType.Email) 1).1,
   (anonymizeValue_amended "victim@real.com" (some SensitiveDataType.Email) 1).2 (by decide)⟩

/-! ### C10 — worker shutdown sentinel -/

/-- C10: the worker emits exactly one outcome, in order, for each job in
the maximal prefix of delivered jobs whose URL is not `"SHUTDOWN"`, and
nothing else: a `"SHUTDOWN"` job terminates the loop with nothing sent on
its sink, and every emitted outcome belongs to a non-`"SHUTDOWN"` job. -/
theorem workerTask_exactly_once (proc : Job → Except String String) (jobs : List Job) :
    workerTask proc jobs =
      (jobs.takeWhile (fun j => !(j.url == "SHUTDOWN"))).map (fun j => (j.jobId, proc j)) ∧
    ∀ p ∈ workerTask proc jobs,
      ∃ j ∈ jobs, j.url ≠ "SHUTDOWN" ∧ p = (j.jobId, proc j) := by
  constructor
  · induction jobs with
    | nil => rfl
    | cons j rest ih =>
      by_cases hj : j.url = "SHUTDOWN"
      · have hb : (j.url == "SHUTDOWN") = true := by simp [hj]
        simp [workerTask, List.takeWhile_cons, hj, hb]
      · have hb : (j.url == "SHUTDOWN") = false := by simp [hj]
        simp [workerTask, List.takeWhile_cons, hj, hb, ih]
  · intro p
    induction jobs with
    | nil => intro hp; simp [workerTask] at hp
    | cons j rest ih =>
      intro hp
      by_cases hj : j.url = "SHUTDOWN"
      · rw [workerTask, if_pos hj] at hp
        exact absurd hp (by simp)
      · rw [workerTask, if_neg hj] at hp
        rcases List.mem_cons.mp hp with hp | hp
        · exact ⟨j, List.mem_cons_self j rest, hj, hp⟩
        · obtain ⟨j', hj', hne, hpe⟩ := ih hp
          exact ⟨j', List.mem_cons_of_mem j hj', hne, hpe⟩

/-- C10, instantiated: the outcome of the pre-sentinel job is the one
message the worker sent, and it belongs to a non-`"SHUTDOWN"` job. -/
theorem workerTask_exactly_once_witness :
    ∃ j ∈ jobsW, j.url ≠ "SHUTDOWN" ∧
      ((0 : Nat), (Except.ok "http://x/" : Except String String)) = (j.jobId, procStub j) :=
  (workerTask_exactly_once procStub jobsW).2 (0, Except.ok "http://x/") (List.Mem.head _)

/-! ### C5 — batch crawl semantics -/

/-- C5 counterexample: in a two-URL batch whose first crawl fails, the
whole batch returns an error — the successful result of the second URL is
not reported, contradicting "per-element error without aborting the
batch". -/
theorem crawlMultiple_abort_counterexample :
    crawlMultipleUrls crawlStubBatch ["http://bad/", "http://good/"] =
      .error "Failed to crawl http://bad/: dns failure" ∧
    crawlStubBatch "http://good/" = .ok ⟨["http://good/"], 0⟩ :=
  ⟨rfl, rfl⟩

/-- C5 amended: when the batch succeeds it returns exactly one result per
input URL, in input order, each being that URL's crawl result; any per-URL
failure aborts the whole batch with an error (shown separately by the
counterexample). -/
theorem crawlMultiple_order_amended (crawl : String → Except String RedirectResult)
    (urls : List String) (rs : List RedirectResult)
    (h : crawlMultipleUrls crawl urls = .ok rs) :
    List.Forall₂ (fun u r => crawl u = .ok r) urls rs := by
  induction urls generalizing rs with
  | nil =>
    rw [crawlMultipleUrls] at h
    cases h
    exact List.Forall₂.nil
  | cons u rest ih =>
    rw [crawlMultipleUrls] at h
    cases hc : crawl u with
    | error e => rw [hc] at h; exact absurd h (by simp)
    | ok r =>
      rw [hc] at h
      cases hrec : crawlMultipleUrls crawl rest with
      | error e => rw [hrec] at h; exact absurd h (by simp [Except.map])
      | ok rs' =>
        rw [hrec] at h
        simp only [Except.map] at h
        cases h
        exact List.Forall₂.cons hc (ih rs' hrec)

/-- C5 amended, instantiated on a two-URL all-success batch. -/
theorem crawlMultiple_order_amended_witness :
    List.Forall₂ (fun u r => crawlOkStub u = .ok r)
      ["http://x/", "http://y/"] [⟨["http://x/"], 0⟩, ⟨["http://y/"], 0⟩] :=
  crawlMultiple_order_amended crawlOkStub ["http://x/", "http://y/"]
    [⟨["http://x/"], 0⟩, ⟨["http://y/"], 0⟩] rfl

/-! ### C2 — URL reconstruction -/

/-- Membership after a `HashMap`-style insert: each pair was already there
or is the inserted one. -/
theorem mem_upsert {l : List (String × String)} {k v : String} {kv : String × String}
    (h : kv ∈ upsert l k v) : kv ∈ l ∨ kv = (k, v) := by
  induction l with
  | nil => simpa [upsert] using h
  | cons hd tl ih =>
    obtain ⟨k', v'⟩ := hd
    rw [upsert] at h
    by_cases hk : k' = k
    · rw [if_pos hk] at h
      rcases List.mem_cons.mp h with h | h
      · exact Or.inr h
      · exact Or.inl (List.mem_cons_of_mem _ h)
    · rw [if_neg hk] at h
      rcases List.mem_cons.mp h with h | h
      · exact Or.inl (h ▸ List.mem_cons_self _ _)
      · rcases ih h with h | h
        · exact Or.inl (List.mem_cons_of_mem _ h)
        · exact Or.inr h

/-- Provenance invariant of the `process_query_parameters` loop: on
success, the accumulated identifiers persist, and every replacement
parameter either was already accumulated, or is a preserved redirect
parameter taken verbatim from the remaining query pairs, or carries the
anonymized value of some produced identifier. -/
theorem processQueryLoop_spec (parseOk : String → Bool) (picks : Nat → Nat) :
    ∀ (qs : List (String × String)) (ids0 : List Identifier)
      (params0 : List (String × String)) (k : Nat)
      (ids : List Identifier) (params : List (String × String)),
    processQueryLoop parseOk picks qs ids0 params0 k = .ok (ids, params) →
    (∀ x ∈ ids0, x ∈ ids) ∧
    ∀ kv ∈ params,
      kv ∈ params0 ∨
      (kv ∈ qs ∧ (kv.1 = "url" ∨ kv.1 = "redirect_uri" ∨ kv.1 = "redirect_url")) ∨
      ∃ idr ∈ ids, idr.anonymized_value = some kv.2 := by
  intro qs
  induction qs with
  | nil =>
    intro ids0 params0 k ids params h
    rw [processQueryLoop] at h
    cases h
    exact ⟨fun x hx => hx, fun kv hkv => Or.inl hkv⟩
  | cons q rest ih =>
    obtain ⟨key, value⟩ := q
    intro ids0 params0 k ids params h
    rw [processQueryLoop] at h
    by_cases hhttp : (strStartsWith value "http://" || strStartsWith value "https://") = true
    · rw [if_pos hhttp] at h
      by_cases hok : parseOk value = true
      · rw [if_pos hok] at h
        by_cases hkey : key = "url" ∨ key = "redirect_uri" ∨ key = "redirect_url"
        · rw [if_pos hkey] at h
          obtain ⟨hids, hprov⟩ := ih ids0 (upsert params0 key value) k ids params h
          refine ⟨hids, fun kv hkv => ?_⟩
          rcases hprov kv hkv with hkv0 | hkv0 | hkv0
          · rcases mem_upsert hkv0 with hm | hm
            · exact Or.inl hm
            · exact Or.inr (Or.inl ⟨hm ▸ List.mem_cons_self _ _, by rw [hm]; exact hkey⟩)
          · exact Or.inr (Or.inl ⟨List.mem_cons_of_mem _ hkv0.1, hkv0.2⟩)
          · exact Or.inr (Or.inr hkv0)
        · rw [if_neg hkey] at h
          by_cases hlen : 8 < value.length
          · rw [if_pos hlen] at h
            cases ha : analyzeBase64Internal value (picks k) with
            | none =>
              simp only [ha] at h
              obtain ⟨hids, hprov⟩ := ih ids0 params0 k ids params h
              refine ⟨hids, fun kv hkv => ?_⟩
              rcases hprov kv hkv with hkv0 | hkv0 | hkv0
              · exact Or.inl hkv0
              · exact Or.inr (Or.inl ⟨List.mem_cons_of_mem _ hkv0.1, hkv0.2⟩)
              · exact Or.inr (Or.inr hkv0)
            | some idr =>
              simp only [ha] at h
              cases han : idr.anonymized_value with
              | none =>
                simp only [han] at h
                obtain ⟨hids, hprov⟩ := ih (ids0 ++ [idr]) params0 (k + 1) ids params h
                refine ⟨fun x hx => hids x (List.mem_append_left _ hx), fun kv hkv => ?_⟩
                rcases hprov kv hkv with hkv0 | hkv0 | hkv0
                · exact Or.inl hkv0
                · exact Or.inr (Or.inl ⟨List.mem_cons_of_mem _ hkv0.1, hkv0.2⟩)
                · exact Or.inr (Or.inr hkv0)
              | some a =>
                simp only [han] at h
                obtain ⟨hids, hprov⟩ := ih (ids0 ++ [idr]) (upsert params0 key a) (k + 1) ids params h
                have hidr : idr ∈ ids :=
                  hids idr (List.mem_append_right _ (List.mem_cons_self _ _))
                refine ⟨fun x hx => hids x (List.mem_append_left _ hx), fun kv hkv => ?_⟩
                rcases hprov kv hkv with hkv0 | hkv0 | hkv0
                · rcases mem_upsert hkv0 with hm | hm
                  · exact Or.inl hm
                  · exact Or.inr (Or.inr ⟨idr, hidr, by rw [hm, han]⟩)
                · exact Or.inr (Or.inl ⟨List.mem_cons_of_mem _ hkv0.1, hkv0.2⟩)
                · exact Or.inr (Or.inr hkv0)
          · rw [if_neg hlen] at h
            obtain ⟨hids, hprov⟩ := ih ids0 params0 k ids params h
            refine ⟨hids, fun kv hkv => ?_⟩
            rcases hprov kv hkv with hkv0 | hkv0 | hkv0
            · exact Or.inl hkv0
            · exact Or.inr (Or.inl ⟨List.mem_cons_of_mem _ hkv0.1, hkv0.2⟩)
            · exact Or.inr (Or.inr hkv0)
      · rw [if_neg hok] at h
        exact absurd h (by simp)
    · rw [if_neg hhttp] at h
      by_cases hlen : 8 < value.length
      · rw [if_pos hlen] at h
        cases ha : analyzeBase64Internal value (picks k) with
        | none =>
          simp only [ha] at h
          obtain ⟨hids, hprov⟩ := ih ids0 params0 k ids params h
          refine ⟨hids, fun kv hkv => ?_⟩
          rcases hprov kv hkv with hkv0 | hkv0 | hkv0
          · exact Or.inl hkv0
          · exact Or.inr (Or.inl ⟨List.mem_cons_of_mem _ hkv0.1, hkv0.2⟩)
          · exact Or.inr (Or.inr hkv0)
        | some idr =>
          simp only [ha] at h
          cases han : idr.anonymized_value with
          | none =>
            simp only [han] at h
            obtain ⟨hids, hprov⟩ := ih (ids0 ++ [idr]) params0 (k + 1) ids params h
            refine ⟨fun x hx => hids x (List.mem_append_left _ hx), fun kv hkv => ?_⟩
            rcases hprov kv hkv with hkv0 | hkv0 | hkv0
            · exact Or.inl hkv0
            · exact Or.inr (Or.inl ⟨List.mem_cons_of_mem _ hkv0.1, hkv0.2⟩)
            · exact Or.inr (Or.inr hkv0)
          | some a =>
            simp only [han] at h
            obtain ⟨hids, hprov⟩ := ih (ids0 ++ [idr]) (upsert params0 key a) (k + 1) ids params h
            have hidr : idr ∈ ids :=
              hids idr (List.mem_append_right _ (List.mem_cons_self _ _))
            refine ⟨fun x hx => hids x (List.mem_append_left _ hx), fun kv hkv => ?_⟩
            rcases hprov kv hkv with hkv0 | hkv0 | hkv0
            · rcases mem_upsert hkv0 with hm | hm
              · exact Or.inl hm
              · exact Or.inr (Or.inr ⟨idr, hidr, by rw [hm, han]⟩)
            · exact Or.inr (Or.inl ⟨List.mem_cons_of_mem _ hkv0.1, hkv0.2⟩)
            · exact Or.inr (Or.inr hkv0)
      · rw [if_neg hlen] at h
        obtain ⟨hids, hprov⟩ := ih ids0 params0 k ids params h
        refine ⟨hids, fun kv hkv => ?_⟩
        rcases hprov kv hkv with hkv0 | hkv0 | hkv0
        · exact Or.inl hkv0
        · exact Or.inr (Or.inl ⟨List.mem_cons_of_mem _ hkv0.1, hkv0.2⟩)
        · exact Or.inr (Or.inr hkv0)

/-- C2 counterexample: the parameter `q=v` of
`https://example.com/path?q=v` produces no finding, and the reconstructed
URL has an empty query — the parameter is dropped, not carried unchanged
as the claim requires. -/
theorem reconstruct_drops_params_counterexample :
    ("q", "v") ∈ urlQV.query ∧
    processQueryParameters (fun _ => true) (fun _ => 0) urlQV = .ok ([], []) ∧
    (reconstructUrl urlQV []).query = [] :=
  ⟨by decide, rfl, rfl⟩

/-- C2 amended: the anonymized URL keeps the original scheme, host and
path, and its query consists exactly of the replacement parameters — the
preserved redirect parameters (`url`, `redirect_uri`, `redirect_url`)
carried verbatim and, for each parameter that produced an Identifier, the
identifier's anonymized value as-is (not base64-re-encoded); parameters
with no finding are dropped. -/
theorem reconstructUrl_amended (parseOk : String → Bool) (picks : Nat → Nat)
    (url : UrlModel) (ids : List Identifier) (params : List (String × String))
    (h : processQueryParameters parseOk picks url = .ok (ids, params)) :
    (reconstructUrl url params).scheme = url.scheme ∧
    (reconstructUrl url params).host = url.host ∧
    (reconstructUrl url params).path = url.path ∧
    (reconstructUrl url params).query = params ∧
    ∀ kv ∈ (reconstructUrl url params).query,
      (kv ∈ url.query ∧ (kv.1 = "url" ∨ kv.1 = "redirect_uri" ∨ kv.1 = "redirect_url")) ∨
      ∃ idr ∈ ids, idr.anonymized_value = some kv.2 := by
  obtain ⟨-, hprov⟩ := processQueryLoop_spec parseOk picks url.query [] [] 0 ids params h
  refine ⟨rfl, rfl, rfl, rfl, fun kv hkv => ?_⟩
  rcases hprov kv hkv with hkv0 | hkv0 | hkv0
  · exact absurd hkv0 (List.not_mem_nil kv)
  · exact Or.inl hkv0
  · exact Or.inr hkv0

/-- C2 amended, instantiated on `https://example.com/path?q=v`. -/
theorem reconstructUrl_amended_witness :
    (reconstructUrl urlQV []).scheme = urlQV.scheme ∧
    (reconstructUrl urlQV []).host = urlQV.host ∧
    (reconstructUrl urlQV []).path = urlQV.path ∧
    (reconstructUrl urlQV []).query = [] ∧
    ∀ kv ∈ (reconstructUrl urlQV []).query,
      (kv ∈ urlQV.query ∧ (kv.1 = "url" ∨ kv.1 = "redirect_uri" ∨ kv.1 = "redirect_url")) ∨
      ∃ idr ∈ ([] : List Identifier), idr.anonymized_value = some kv.2 :=
  reconstructUrl_amended (fun _ => true) (fun _ => 0) urlQV [] [] rfl

/-! ### C9 — substitution idempotence -/

/-- A pattern that occurs nowhere in the string is replaced vacuously. -/
theorem replaceGo_of_not_contains (pat rep : List Char) :
    ∀ l, containsSub pat l = false → replaceGo pat rep l 0 = l := by
  intro l
  induction l with
  | nil => intro h; rfl
  | cons c rest ih =>
    intro h
    rw [containsSub] at h
    have h1 : pat.isPrefixOf (c :: rest) = false := (Bool.or_eq_false_iff.mp h).1
    have h2 : containsSub pat rest = false := (Bool.or_eq_false_iff.mp h).2
    rw [replaceGo, if_neg (fun hc => by rw [h1] at hc; exact Bool.noConfusion hc.2), ih h2]

/-- `strReplace` is the identity when the pattern does not occur. -/
theorem strReplace_of_not_contains (s pat rep : String)
    (h : containsSub pat.data s.data = false) : strReplace s pat rep = s := by
  unfold strReplace replaceAll
  rw [replaceGo_of_not_contains pat.data rep.data s.data h]

/-- `substStep` fixes the first component when the identifier's raw value
does not occur in it. -/
theorem substStep_fst_fixed (idr : Identifier) (a b : String)
    (h : containsSub idr.value.data a.data = false) : (substStep (a, b) idr).1 = a := by
  unfold substStep
  cases idr.decoded_value with
  | none => rfl
  | some dec => exact strReplace_of_not_contains a idr.value dec h

/-- `substStep` fixes the second component when the identifier's raw value
does not occur in it. -/
theorem substStep_snd_fixed (idr : Identifier) (a b : String)
    (h : containsSub idr.value.data b.data = false) : (substStep (a, b) idr).2 = b := by
  unfold substStep
  cases idr.anonymized_value with
  | none => rfl
  | some an => exact strReplace_of_not_contains b idr.value an h

/-- The decoded component of the substitution fold is fixed by any string
containing no identifier's raw value. -/
theorem createUrls_fst_fixed (ids : List Identifier) :
    ∀ a b : String, (∀ idr ∈ ids, containsSub idr.value.data a.data = false) →
    (ids.foldl substStep (a, b)).1 = a := by
  induction ids with
  | nil => intro a b _; rfl
  | cons idr rest ih =>
    intro a b h
    rw [List.foldl_cons, ← @Prod.mk.eta _ _ (substStep (a, b) idr),
      substStep_fst_fixed idr a b (h idr (List.mem_cons_self _ _))]
    exact ih a _ (fun x hx => h x (List.mem_cons_of_mem _ hx))

/-- The replacement component of the substitution fold is fixed by any
string containing no identifier's raw value. -/
theorem createUrls_snd_fixed (ids : List Identifier) :
    ∀ a b : String, (∀ idr ∈ ids, containsSub idr.value.data b.data = false) →
    (ids.foldl substStep (a, b)).2 = b := by
  induction ids with
  | nil => intro a b _; rfl
  | cons idr rest ih =>
    intro a b h
    rw [List.foldl_cons, ← @Prod.mk.eta _ _ (substStep (a, b) idr),
      substStep_snd_fixed idr a b (h idr (List.mem_cons_self _ _))]
    exact ih _ b (fun x hx => h x (List.mem_cons_of_mem _ hx))

set_option maxRecDepth 8000 in
/-- C9 counterexample: both query-parameter values of `urlB64` are
analyzer-produced identifiers (`idHello` and `idNested` — the second
decodes to the raw value of the first), and applying the `raw → decoded`
substitution of `create_decoded_and_replacement_urls` twice to the
original URL text yields a different string than applying it once: the
first application re-introduces the raw value `aGVsbG94eA==` and the
second rewrites it again. -/
theorem substitution_not_idempotent_counterexample :
    processQueryParameters (fun _ => true) (fun _ => 0) urlB64 =
      .ok ([idHello, idNested], [("a", "testuser"), ("b", "testuser")]) ∧
    decodedSubst [idHello, idNested] origB64 =
      "https://example.com/?a=helloxx&b=aGVsbG94eA==" ∧
    decodedSubst [idHello, idNested] (decodedSubst [idHello, idNested] origB64) =
      "https://example.com/?a=helloxx&b=helloxx" ∧
    decodedSubst [idHello, idNested] (decodedSubst [idHello, idNested] origB64) ≠
      decodedSubst [idHello, idNested] origB64 := by
  refine ⟨?_, rfl, rfl, by decide⟩
  rfl

/-- C9 amended: the `raw → decoded` and `raw → replacement` substitutions
are idempotent provided no identifier's raw value occurs in the
once-substituted string (the counterexample shows this proviso is
necessary: one identifier's decoded value may be another's raw value). -/
theorem substitution_idempotent_amended (ids : List Identifier) (s : String)
    (hd : ∀ idr ∈ ids, containsSub idr.value.data (decodedSubst ids s).data = false)
    (hr : ∀ idr ∈ ids, containsSub idr.value.data (replacementSubst ids s).data = false) :
    decodedSubst ids (decodedSubst ids s) = decodedSubst ids s ∧
    replacementSubst ids (replacementSubst ids s) = replacementSubst ids s :=
  ⟨createUrls_fst_fixed ids (decodedSubst ids s) (decodedSubst ids s) hd,
   createUrls_snd_fixed ids (replacementSubst ids s) (replacementSubst ids s) hr⟩

/-- C9 amended, instantiated: with the single identifier `idHello` on
`https://example.com/?a=aGVsbG94eA==` the raw value does not survive one
application, and both substitutions are idempotent. -/
theorem substitution_idempotent_amended_witness :
    decodedSubst [idHello] (decodedSubst [idHello] "https://example.com/?a=aGVsbG94eA==") =
      decodedSubst [idHello] "https://example.com/?a=aGVsbG94eA==" ∧
    replacementSubst [idHello]
        (replacementSubst [idHello] "https://example.com/?a=aGVsbG94eA==") =
      replacementSubst [idHello] "https://example.com/?a=aGVsbG94eA==" :=
  substitution_idempotent_amended [idHello] "https://example.com/?a=aGVsbG94eA=="
    (by decide) (by decide)

/-! ### C3 — redirect crawler result invariants -/

/-- Loop invariant of the crawl: starting from a visited set matching the
chain, a duplicate-free chain of length `hops`, and `hops ≤ max_hops`, any
successful result keeps the chain's first element, stays duplicate-free,
respects the hop cap, and has `chain.length` equal to `hop_count + 1` or —
exactly on loop-detection exits — to `hop_count`. -/
theorem crawlLoop_inv (cfg : CrawlerConfig) (parse : String → Option UrlModel)
    (resolve : String → String → Option String) (web : Web) (sh : Option String) :
    ∀ (fuel : Nat) (visited chain : List String) (current : String) (hops : Nat)
      (r : RedirectResult),
    (∀ x, x ∈ visited ↔ x ∈ chain) →
    chain.Nodup →
    chain.length = hops →
    hops ≤ cfg.max_hops →
    crawlLoop cfg parse resolve web sh fuel visited chain current hops = .ok r →
    r.chain.head? = some (chain.headD current) ∧ r.chain.Nodup ∧
    r.hop_count ≤ cfg.max_hops ∧
    (r.chain.length = r.hop_count + 1 ∨ r.chain.length = r.hop_count) := by
  intro fuel
  induction fuel with
  | zero =>
    intro visited chain current hops r hiff hnd hlen hhop h
    exact absurd h (by simp [crawlLoop])
  | succ n ih =>
    intro visited chain current hops r hiff hnd hlen hhop h
    rw [crawlLoop] at h
    by_cases hv : current ∈ visited
    · rw [if_pos hv] at h
      rw [Except.ok.injEq] at h
      subst h
      have hc : current ∈ chain := (hiff current).mp hv
      cases chain with
      | nil => exact absurd hc (List.not_mem_nil current)
      | cons c cs => exact ⟨rfl, hnd, hhop, Or.inr hlen⟩
    · rw [if_neg hv] at h
      have hcur : current ∉ chain := fun hc => hv ((hiff current).mpr hc)
      have hiff2 : ∀ x, x ∈ (current :: visited) ↔ x ∈ chain ++ [current] := by
        intro x
        rw [List.mem_cons, List.mem_append, List.mem_singleton, hiff x]
        tauto
      have hnd2 : (chain ++ [current]).Nodup := by
        simp [List.nodup_append, hnd, hcur]
      have hlen2 : (chain ++ [current]).length = hops + 1 := by
        simp [hlen]
      have hhead2 : (chain ++ [current]).head? = some (chain.headD current) := by
        cases chain with
        | nil => rfl
        | cons c cs => rfl
      cases hw : web current with
      | none =>
        simp only [hw] at h
        exact absurd h (by simp)
      | some resp =>
        simp only [hw] at h
        by_cases hred : isRedirectStatus resp.status = true
        · rw [if_pos hred] at h
          cases hloc : findLocation parse current resp with
          | none =>
            simp only [hloc, Except.ok.injEq] at h
            subst h
            exact ⟨hhead2, hnd2, hhop, Or.inl hlen2⟩
          | some locStr =>
            simp only [hloc] at h
            by_cases hcap : cfg.max_hops ≤ hops
            · rw [if_pos hcap] at h
              rw [Except.ok.injEq] at h
              subst h
              exact ⟨hhead2, hnd2, hhop, Or.inl hlen2⟩
            · rw [if_neg hcap] at h
              cases hnext : nextUrlOf parse resolve current locStr with
              | error e =>
                simp only [hnext] at h
                exact absurd h (by simp)
              | ok nextUrl =>
                simp only [hnext] at h
                cases hp : parse nextUrl with
                | none =>
                  simp only [hp] at h
                  exact absurd h (by simp)
                | some nextParsed =>
                  simp only [hp] at h
                  by_cases hsch : ¬ cfg.allowed_schemes.contains nextParsed.scheme = true
                  · rw [if_pos hsch] at h
                    rw [Except.ok.injEq] at h
                    subst h
                    exact ⟨hhead2, hnd2, hhop, Or.inl hlen2⟩
                  · rw [if_neg hsch] at h
                    by_cases hhost : cfg.follow_hostname_redirects_only = true ∧
                        hostStr sh ≠ hostStr nextParsed.host
                    · rw [if_pos hhost] at h
                      rw [Except.ok.injEq] at h
                      subst h
                      exact ⟨hhead2, hnd2, hhop, Or.inl hlen2⟩
                    · rw [if_neg hhost] at h
                      obtain ⟨rh, rn, rhm, rl⟩ :=
                        ih (current :: visited) (chain ++ [current]) nextUrl (hops + 1) r
                          hiff2 hnd2 hlen2 (by omega) h
                      refine ⟨?_, rn, rhm, rl⟩
                      rw [rh]
                      congr 1
                      cases chain with
                      | nil => rfl
                      | cons c cs => rfl
        · rw [if_neg hred] at h
          by_cases hmr : resp.status = 200 ∧ cfg.detect_meta_refresh = true
          · rw [if_pos hmr] at h
            rw [Except.ok.injEq] at h
            subst h
            exact ⟨hhead2, hnd2, hhop, Or.inl hlen2⟩
          · rw [if_neg hmr] at h
            rw [Except.ok.injEq] at h
            subst h
            exact ⟨hhead2, hnd2, hhop, Or.inl hlen2⟩

/-- C3 counterexample: on the two-cycle `http://a/ → http://b/ →
http://a/` the crawl stops by loop detection with `chain = [a, b]` and
`hop_count = 2`: the final redirect is counted as a hop but its
already-visited target is not appended, so `hop_count ≠ chain.length − 1`. -/
theorem crawl_loop_detection_counterexample :
    crawlRedirectChainWithConfig parseToy resolveNone webLoop "http://a/" cfgBase =
      .ok ⟨["http://a/", "http://b/"], 2⟩ ∧
    (2 : Nat) ≠ (["http://a/", "http://b/"] : List String).length - 1 :=
  ⟨rfl, by decide⟩

/-- C3 amended: for every successful crawl, `chain[0]` is the start URL,
the chain has no duplicates and `hop_count ≤ max_hops`; `chain.length`
equals `hop_count + 1` except on loop-detection stops, where it equals
`hop_count` — so only the disjunction holds in general. -/
theorem crawl_result_invariants_amended (parse : String → Option UrlModel)
    (resolve : String → String → Option String) (web : Web)
    (startUrl : String) (cfg : CrawlerConfig) (r : RedirectResult)
    (h : crawlRedirectChainWithConfig parse resolve web startUrl cfg = .ok r) :
    r.chain.head? = some startUrl ∧ r.chain.Nodup ∧ r.hop_count ≤ cfg.max_hops ∧
    (r.chain.length = r.hop_count + 1 ∨ r.chain.length = r.hop_count) := by
  unfold crawlRedirectChainWithConfig at h
  by_cases h1 : startUrl.data.isEmpty = true
  · rw [if_pos h1] at h
    exact absurd h (by simp)
  · rw [if_neg h1] at h
    by_cases h2 : cfg.max_url_length < startUrl.length
    · rw [if_pos h2] at h
      exact absurd h (by simp)
    · rw [if_neg h2] at h
      cases hp : parse startUrl with
      | none =>
        simp only [hp] at h
        exact absurd h (by simp)
      | some u =>
        simp only [hp] at h
        by_cases h3 : ¬ cfg.allowed_schemes.contains u.scheme = true
        · rw [if_pos h3] at h
          exact absurd h (by simp)
        · rw [if_neg h3] at h
          exact crawlLoop_inv cfg parse resolve web u.host (cfg.max_hops + 1)
            [] [] startUrl 0 r (by simp) List.nodup_nil rfl (Nat.zero_le _) h

/-- C3 amended, instantiated on the loop-detection crawl itself: the
invariants hold there with the `chain.length = hop_count` disjunct. -/
theorem crawl_result_invariants_amended_witness :
    (⟨["http://a/", "http://b/"], 2⟩ : RedirectResult).chain.head? = some "http://a/" ∧
    (⟨["http://a/", "http://b/"], 2⟩ : RedirectResult).chain.Nodup ∧
    (⟨["http://a/", "http://b/"], 2⟩ : RedirectResult).hop_count ≤ cfgBase.max_hops ∧
    ((⟨["http://a/", "http://b/"], 2⟩ : RedirectResult).chain.length =
        (⟨["http://a/", "http://b/"], 2⟩ : RedirectResult).hop_count + 1 ∨
      (⟨["http://a/", "http://b/"], 2⟩ : RedirectResult).chain.length =
        (⟨["http://a/", "http://b/"], 2⟩ : RedirectResult).hop_count) :=
  crawl_result_invariants_amended parseToy resolveNone webLoop "http://a/" cfgBase
    ⟨["http://a/", "http://b/"], 2⟩ rfl

/-! ### C4 — meta-refresh / JavaScript redirect detection -/

/-- C4: the failing run.  `http://a/` answers 200 with Content-Type
`text/html` and a body that is literally a meta-refresh redirect to the
fetchable, same-scheme URL `http://b/`, and `detect_meta_refresh` is
enabled — yet the crawl stops at `http://a/` with a single-element chain:
the source's detection branch reads the Content-Type but explicitly skips
the pattern matching ("We'll skip the actual implementation...") and
always breaks, while the claim requires continuing the chain to the
meta-refresh target. -/
theorem meta_refresh_stub_behavior :
    cfgMeta.detect_meta_refresh = true ∧
    webMeta "http://a/" = some ⟨200, none, some "text/html",
      "<meta http-equiv=\"refresh\" content=\"0; url=http://b/\">"⟩ ∧
    strContains "<meta http-equiv=\"refresh\" content=\"0; url=http://b/\">"
      "http-equiv=\"refresh\"" = true ∧
    (webMeta "http://b/").isSome = true ∧
    (parseToy "http://b/").isSome = true ∧
    crawlRedirectChainWithConfig parseToy resolveNone webMeta "http://a/" cfgMeta =
      .ok ⟨["http://a/"], 0⟩ :=
  ⟨rfl, rfl, by decide, rfl, rfl, rfl⟩

end ScreenshotAPI
